import Mathlib

/-!
Verification of the aadhaar-360-sentinel repository: a shallow embedding of
the ETL pipeline (`src/etl_pipeline/ingest_data.py`), the forecast trainer
(`src/model/train_forecaster.py`) and the audit query engine
(`src/api/app.py`), together with proofs about the embedded definitions.

Python strings are modelled as lists of Unicode codepoints (`Str`), with the
ASCII semantics of `str.strip`, `str.title`, `str.lower` and
`str.replace` that the location data exercises.  Python/numpy floats are
modelled as exact rationals extended with the three non-finite values
(`PFloat`), since the only float operations the code performs (add, divide,
compare, round-half-even) are exact on decimal inputs apart from the
non-finite behaviour, which is modelled explicitly.
-/

/-- Strings as lists of Unicode codepoints (the view Python's `str`
operations act on). -/
abbrev Str := List Nat

/-- Conversion from a Lean string literal to the codepoint model. -/
def str (s : String) : Str := s.data.map Char.toNat

/-- Whitespace codepoints stripped by Python's `str.strip` (ASCII range). -/
def isSpaceCp (n : Nat) : Bool := n = 32 || n = 9 || n = 10 || n = 11 || n = 12 || n = 13

/-- Uppercase ASCII letter. -/
def isUpperCp (n : Nat) : Bool := 65 ≤ n && n ≤ 90

/-- Lowercase ASCII letter. -/
def isLowerCp (n : Nat) : Bool := 97 ≤ n && n ≤ 122

/-- Letter (the "cased character" test Python's `str.title` uses, ASCII range). -/
def isAlphaCp (n : Nat) : Bool := isUpperCp n || isLowerCp n

/-- Codepoint uppercasing, ASCII. -/
def toUpperCp (n : Nat) : Nat := if isLowerCp n then n - 32 else n

/-- Codepoint lowercasing, ASCII. -/
def toLowerCp (n : Nat) : Nat := if isUpperCp n then n + 32 else n

/-- Python `str.strip()`: drop leading and trailing whitespace. -/
def pyStrip (s : Str) : Str :=
  ((s.dropWhile isSpaceCp).reverse.dropWhile isSpaceCp).reverse

/-- Python `str.lower()` (ASCII). -/
def toLowerStr (s : Str) : Str := s.map toLowerCp

/-- Pandas `.str.replace("&", "And", regex=False)`: replace every occurrence
of `&` (codepoint 38) by `And` (codepoints 65, 110, 100). -/
def replaceAmp : Str → Str
  | [] => []
  | c :: cs => if c = 38 then 65 :: 110 :: 100 :: replaceAmp cs else c :: replaceAmp cs

/-- One character of Python `str.title()`: a letter is uppercased when the
preceding character is not a letter, lowercased otherwise. -/
def titleChar (prevAlpha : Bool) (c : Nat) : Nat :=
  if isAlphaCp c then (if prevAlpha then toLowerCp c else toUpperCp c) else c

/-- Scanner for Python `str.title()`; `prevAlpha` records whether the
previous character was a letter. -/
def titleAux (prevAlpha : Bool) : Str → Str
  | [] => []
  | c :: cs => titleChar prevAlpha c :: titleAux (isAlphaCp c) cs

/-- Python `str.title()`. -/
def pyTitle (s : Str) : Str := titleAux false s

/-- The location normalizer of `ingest_data.py` (`normalize_location_names`,
applied identically to the `state` and `district` columns): strip
surrounding whitespace, replace `&` by `And`, then title-case. -/
def normalize_location (s : Str) : Str := pyTitle (replaceAmp (pyStrip s))

/-!
Float model: `ingest_data.py` divides pandas float columns, which produces
NaN (`0/0`) or a signed infinity (`x/0`, `x ≠ 0`) on a zero denominator, and
`DataFrame.to_json` serializes every non-finite double as JSON `null`.
-/

/-- Pandas/numpy double, modelled as an exact rational extended with the
non-finite values. -/
inductive PFloat where
  | fin (q : ℚ)
  | nan
  | inf
  | ninf
deriving DecidableEq

/-- IEEE addition on the model (used by pandas column sums). -/
def padd : PFloat → PFloat → PFloat
  | .nan, _ => .nan
  | _, .nan => .nan
  | .inf, .ninf => .nan
  | .ninf, .inf => .nan
  | .inf, _ => .inf
  | _, .inf => .inf
  | .ninf, _ => .ninf
  | _, .ninf => .ninf
  | .fin a, .fin b => .fin (a + b)

/-- IEEE multiplication on the model. -/
def pmulP : PFloat → PFloat → PFloat
  | .fin a, .fin b => .fin (a * b)
  | .nan, _ => .nan
  | _, .nan => .nan
  | .inf, .inf => .inf
  | .inf, .ninf => .ninf
  | .ninf, .inf => .ninf
  | .ninf, .ninf => .inf
  | .inf, .fin b => if b = 0 then .nan else if 0 < b then .inf else .ninf
  | .fin a, .inf => if a = 0 then .nan else if 0 < a then .inf else .ninf
  | .ninf, .fin b => if b = 0 then .nan else if 0 < b then .ninf else .inf
  | .fin a, .ninf => if a = 0 then .nan else if 0 < a then .ninf else .inf

/-- IEEE division on the model: a zero denominator yields NaN on `0/0` and a
signed infinity otherwise, exactly as pandas float division does. -/
def pdiv : PFloat → PFloat → PFloat
  | .nan, _ => .nan
  | _, .nan => .nan
  | .inf, .fin b => if 0 ≤ b then .inf else .ninf
  | .ninf, .fin b => if 0 ≤ b then .ninf else .inf
  | .inf, _ => .nan
  | .ninf, _ => .nan
  | .fin _, .inf => .fin 0
  | .fin _, .ninf => .fin 0
  | .fin a, .fin b =>
    if b = 0 then (if a = 0 then .nan else if 0 < a then .inf else .ninf)
    else .fin (a / b)

/-- IEEE strict less-than: any comparison against NaN is false. -/
def pltB : PFloat → PFloat → Bool
  | .fin a, .fin b => decide (a < b)
  | .ninf, .fin _ => true
  | .fin _, .inf => true
  | .ninf, .inf => true
  | _, _ => false

/-- Round-half-to-even to an integer, the rounding used by `numpy.round` and
Python's builtin `round`. -/
def npRound (q : ℚ) : ℤ :=
  let f := ⌊q⌋
  let r := q - f
  if r < 1 / 2 then f
  else if 1 / 2 < r then f + 1
  else if 2 ∣ f then f else f + 1

/-- Rounding to `d` decimal places via scaling (`round(x, d)` / `.round(d)`). -/
def roundDecimals (d : ℕ) (q : ℚ) : ℚ := (npRound (q * 10 ^ d) : ℚ) / 10 ^ d

/-- Pandas `.round(3)` on a float column: rounds finite entries, keeps
non-finite entries. -/
def pround3 : PFloat → PFloat
  | .fin q => .fin (roundDecimals 3 q)
  | p => p

/-- Python `round(x, 2)` as applied by `analyze_logic` to the ratio. -/
def pround2 : PFloat → PFloat
  | .fin q => .fin (roundDecimals 2 q)
  | p => p

/-- Python `int(x)`: truncation toward zero.  Defined as `0` on non-finite
input; Python raises there, and every call site in the embedded code reaches
this function only with a finite argument. -/
def pyIntP : PFloat → ℤ
  | .fin q => if q < 0 then ⌈q⌉ else ⌊q⌋
  | _ => 0

/-- Python `max(a, b)` (returns the first argument on ties). -/
def pymax (a b : ℚ) : ℚ := if a < b then b else a

/-- Python `min(a, b)` (returns the first argument on ties). -/
def pymin (a b : ℚ) : ℚ := if b < a then b else a

/-- JSON scalar as it appears in the snapshot artifact for a numeric column. -/
inductive JsonVal where
  | num (q : ℚ)
  | null
deriving DecidableEq

/-- Serialization of one float cell by `DataFrame.to_json`: finite doubles
become JSON numbers, NaN and the infinities become JSON `null`. -/
def jsonOfP : PFloat → JsonVal
  | .fin q => .num q
  | _ => .null

/-!
ETL embedding (`src/etl_pipeline/ingest_data.py`).  A raw CSV row of each of
the three categories carries the free-text location columns plus that
category's integer age-bracket columns; `main` normalizes the location
columns, aborts if any category produced no rows, aggregates each category
by `(state, district)`, left-joins the three aggregates on the enrolment
keys, zero-fills the gaps, derives the ratio, and writes the snapshot.
-/

/-- Raw enrolment row (columns used by `main`). -/
structure RawEnrolRow where
  state : Str
  district : Str
  age_0_5 : ℤ
  age_5_17 : ℤ
  age_18_greater : ℤ
deriving DecidableEq

/-- Raw biometric row (columns used by `main`). -/
structure RawBioRow where
  state : Str
  district : Str
  bio_age_5_17 : ℤ
  bio_age_17_ : ℤ
deriving DecidableEq

/-- Raw demographic row (columns used by `main`). -/
structure RawDemoRow where
  state : Str
  district : Str
  demo_age_5_17 : ℤ
  demo_age_17_ : ℤ
deriving DecidableEq

/-- Application of `normalize_location_names` to one enrolment row. -/
def normEnrolRow (r : RawEnrolRow) : RawEnrolRow :=
  { r with state := normalize_location r.state, district := normalize_location r.district }

/-- Application of `normalize_location_names` to one biometric row. -/
def normBioRow (r : RawBioRow) : RawBioRow :=
  { r with state := normalize_location r.state, district := normalize_location r.district }

/-- Application of `normalize_location_names` to one demographic row. -/
def normDemoRow (r : RawDemoRow) : RawDemoRow :=
  { r with state := normalize_location r.state, district := normalize_location r.district }

/-- Normalized `(state, district)` grouping key. -/
abbrev Key := Str × Str

/-- Lexicographic strict order on codepoint strings (Python string `<`). -/
def strLtB : Str → Str → Bool
  | _, [] => false
  | [], _ :: _ => true
  | a :: as, b :: bs => a < b || (a = b && strLtB as bs)

/-- Lexicographic order on keys, as pandas sorts group labels. -/
def keyLeB (a b : Key) : Bool :=
  strLtB a.1 b.1 || (a.1 = b.1 && (strLtB a.2 b.2 || a.2 = b.2))

/-- Insertion of a key into a sorted key list. -/
def insertKey (k : Key) : List Key → List Key
  | [] => [k]
  | a :: as => if keyLeB k a then k :: a :: as else a :: insertKey k as

/-- Insertion sort of group keys (pandas `groupby` emits group labels in
sorted order). -/
def sortKeys : List Key → List Key
  | [] => []
  | a :: as => insertKey a (sortKeys as)

/-- Distinct keys in order of first occurrence, skipping keys already seen. -/
def dedupAux (seen : List Key) : List Key → List Key
  | [] => []
  | k :: ks => if k ∈ seen then dedupAux seen ks else k :: dedupAux (k :: seen) ks

/-- Distinct keys in order of first occurrence. -/
def dedupF (l : List Key) : List Key := dedupAux [] l

/-- Sum of the metric over the rows carrying a given key. -/
def sumForKey (k : Key) (l : List (Key × ℤ)) : ℤ :=
  ((l.filter (fun p => decide (p.1 = k))).map Prod.snd).sum

/-- Pandas `groupby(["state", "district"]).agg(sum)`: one output row per
distinct key, keys sorted, carrying the sum of the metric over that key's
rows. -/
def groupSum (l : List (Key × ℤ)) : List (Key × ℤ) :=
  (sortKeys (dedupF (l.map Prod.fst))).map (fun k => (k, sumForKey k l))

/-- The `enrol_agg` table: per-row `total_enrolment` is the sum of the three
age brackets, grouped by key. -/
def enrolAgg (rows : List RawEnrolRow) : List (Key × ℤ) :=
  groupSum (rows.map (fun r => ((r.state, r.district), r.age_0_5 + r.age_5_17 + r.age_18_greater)))

/-- The `bio_agg` table: per-row `female_count` is the sum of the two
biometric brackets, grouped by key. -/
def bioAgg (rows : List RawBioRow) : List (Key × ℤ) :=
  groupSum (rows.map (fun r => ((r.state, r.district), r.bio_age_5_17 + r.bio_age_17_)))

/-- The `demo_agg` table: per-row `mobile_update_volume` is the sum of the
two demographic brackets, grouped by key. -/
def demoAgg (rows : List RawDemoRow) : List (Key × ℤ) :=
  groupSum (rows.map (fun r => ((r.state, r.district), r.demo_age_5_17 + r.demo_age_17_)))

/-- Lookup of a key in an aggregate table.  The aggregates always have
distinct keys, so taking the first match models the pandas left merge
exactly. -/
def lookupK (k : Key) (l : List (Key × ℤ)) : Option ℤ :=
  (l.find? (fun p => decide (p.1 = k))).map Prod.snd

/-- Row of `final_df` right after the two left merges: contributions from a
source with no matching key are missing (pandas NaN), modelled as `none`. -/
structure MergedRow where
  key : Key
  total_enrolment : ℤ
  female_count : Option ℤ
  mobile_update_volume : Option ℤ
deriving DecidableEq

/-- The two left merges of `main`, anchored on the enrolment aggregate. -/
def mergeRows (e b d : List (Key × ℤ)) : List MergedRow :=
  e.map (fun p => ⟨p.1, p.2, lookupK p.1 b, lookupK p.1 d⟩)

/-- Row of `final_df` after `fillna(0)`. -/
structure FilledRow where
  key : Key
  total_enrolment : ℤ
  female_count : ℤ
  mobile_update_volume : ℤ
deriving DecidableEq

/-- The `fillna(0, inplace=True)` step: missing contributions become 0. -/
def fillna (rows : List MergedRow) : List FilledRow :=
  rows.map (fun m => ⟨m.key, m.total_enrolment, m.female_count.getD 0, m.mobile_update_volume.getD 0⟩)

/-- Snapshot record in the column order selected at the end of `main`
(`State`, `District`, `mobile_update_volume`, `female_enrolment_pct`,
`total_enrolment`). -/
structure CanonicalRecord where
  State : Str
  District : Str
  mobile_update_volume : ℤ
  female_enrolment_pct : PFloat
  total_enrolment : ℤ
deriving DecidableEq

/-- Ratio derivation and column selection for one merged row:
`female_enrolment_pct = (female_count / total_enrolment).round(3)` as float
division, then the rename of `state`/`district` to `State`/`District`. -/
def canonicalOf (fr : FilledRow) : CanonicalRecord :=
  { State := fr.key.1
    District := fr.key.2
    mobile_update_volume := fr.mobile_update_volume
    female_enrolment_pct := pround3 (pdiv (.fin fr.female_count) (.fin fr.total_enrolment))
    total_enrolment := fr.total_enrolment }

/-- The merged, zero-filled table of `main` (normalization, per-category
aggregation, the two left merges, `fillna(0)`). -/
def mergedFilled (e : List RawEnrolRow) (b : List RawBioRow) (d : List RawDemoRow) :
    List FilledRow :=
  fillna (mergeRows (enrolAgg (e.map normEnrolRow)) (bioAgg (b.map normBioRow))
    (demoAgg (d.map normDemoRow)))

/-- The batch run `main` of `ingest_data.py` from the concatenated rows of
each category (an empty list is the empty DataFrame that
`load_chunked_data` returns when a category has no files): normalize, abort
returning nothing if any category is empty, else merge and emit the
snapshot records. -/
def etlMain (e : List RawEnrolRow) (b : List RawBioRow) (d : List RawDemoRow) :
    Option (List CanonicalRecord) :=
  if e.map normEnrolRow = [] then none
  else if b.map normBioRow = [] then none
  else if d.map normDemoRow = [] then none
  else some ((mergedFilled e b d).map canonicalOf)

/-- One batch run against an existing snapshot artifact: an aborted run
leaves the artifact untouched, a completed run replaces it wholesale. -/
def runBatch (prev : Option (List CanonicalRecord)) (e : List RawEnrolRow)
    (b : List RawBioRow) (d : List RawDemoRow) : Option (List CanonicalRecord) :=
  match etlMain e b d with
  | none => prev
  | some s => some s

/-!
Forecast trainer embedding (`src/model/train_forecaster.py`).  The Prophet
model is an external collaborator: for a state it produces a prediction
column `yhat` over the 24 history rows plus the 3 future periods, and the
rolling-origin cross-validation either yields a raw accuracy
(`100 - mape*100`) or fails, in which case the code falls back to the fixed
default `94.1`.  What the trainer itself computes from those inputs is
embedded below.
-/

/-- Trend classification of a forecast bundle. -/
inductive Trend where
  | INCREASING
  | STABLE
deriving DecidableEq

/-- The per-state bundle written into `load_forecast.pkl`. -/
structure ForecastBundle where
  values : List ℤ
  accuracy : ℚ
  trend : Trend
deriving DecidableEq

/-- Pandas `.tail(3)`: the last three entries. -/
def tail3 (l : List ℚ) : List ℚ := l.drop (l.length - 3)

/-- The forecast values: `forecast.tail(3)['yhat'].clip(lower=0).round().astype(int)`. -/
def forecastVals (yhat : List ℚ) : List ℤ :=
  (tail3 yhat).map (fun q => npRound (if q < 0 then 0 else q))

/-- Construction of one state's bundle from the model's prediction column
and the optional raw cross-validation accuracy (`none` models the `except`
branch, which substitutes the fixed default `94.1`):
`accuracy = round(float(max(85, min(98.2, accuracy))), 1)` and
`trend = "INCREASING" if vals[-1] > vals[0] else "STABLE"`.  The head/last
defaults are unreachable: `yhat` always has 27 rows. -/
def forecastBundleFor (yhat : List ℚ) (cvAccuracy : Option ℚ) : ForecastBundle :=
  let vals := forecastVals yhat
  let accuracy : ℚ := match cvAccuracy with
    | some a => a
    | none => 941 / 10
  { values := vals
    accuracy := roundDecimals 1 (pymax 85 (pymin (982 / 10) accuracy))
    trend := if vals.getLastD 0 > vals.headD 0 then .INCREASING else .STABLE }

/-!
Audit query engine embedding (`src/api/app.py`).  `load_data` reads the
snapshot artifact into a DataFrame and title-cases `State`/`District`; the
`/api/audit` handler validates the `state` parameter, re-cleans the two
columns, filters by state, and either aggregates the whole region or picks
one district row.  Its column reads use the names `Mobile_Number_Updates`
and `Gender_Female`, so they are modelled through a by-name column access
that can fail (a pandas `KeyError`, which Flask surfaces as an internal
server error).  The loaded forecast model is module state the handler never
touches; it is passed in explicitly to make that observable.
-/

/-- Cards produced by `analyze_logic` — security pillar message. -/
inductive SecMessage where
  | highAnomaly (updates : ℤ)
  | normalActivity
deriving DecidableEq

/-- Cards produced by `analyze_logic` — inclusivity pillar message. -/
inductive IncMessage where
  | lowFemaleEnrolment (pct : ℤ)
  | genderRatioHealthy
deriving DecidableEq

/-- Security pillar card. -/
structure SecurityCard where
  status : String
  message : SecMessage
  mobile_update_volume : ℤ
deriving DecidableEq

/-- Inclusivity pillar card. -/
structure InclusivityCard where
  status : String
  message : IncMessage
  female_enrolment_pct : PFloat
deriving DecidableEq

/-- Efficiency pillar card. -/
structure EfficiencyCard where
  status : String
  biometric_traffic_trend : List ℤ
deriving DecidableEq

/-- The three-pillar assessment returned under `cards`. -/
structure Cards where
  security : SecurityCard
  inclusivity : InclusivityCard
  efficiency : EfficiencyCard
deriving DecidableEq

/-- The `analyze_logic` function of `app.py`: security is `CRITICAL` when
`volume > 1000`, inclusivity is `WARNING` when `ratio < 0.40` (an IEEE
comparison — false on NaN), and the inclusivity message interpolates
`int(ratio*100)`. -/
def analyze_logic (volume : ℤ) (ratio : PFloat) (forecast_values : List ℤ) : Cards :=
  let sec_status : String := if volume > 1000 then "CRITICAL" else "SAFE"
  let sec_msg : SecMessage :=
    if sec_status = "CRITICAL" then .highAnomaly volume else .normalActivity
  let inc_status : String := if pltB ratio (.fin (mkRat 2 5)) then "WARNING" else "SAFE"
  let inc_msg : IncMessage :=
    if inc_status = "WARNING" then .lowFemaleEnrolment (pyIntP (pmulP ratio (.fin 100)))
    else .genderRatioHealthy
  { security := ⟨sec_status, sec_msg, volume⟩
    inclusivity := ⟨inc_status, inc_msg, pround2 ratio⟩
    efficiency := ⟨"SAFE", forecast_values⟩ }

/-- The pickled forecast artifact: a mapping from state name to bundle. -/
abbrev ForecastArtifact := List (Str × ForecastBundle)

/-- Response of the `/api/audit` handler: a success body, a structured
error body with its HTTP status code, or an unhandled `KeyError` on a
missing DataFrame column (Flask turns this into an HTTP 500). -/
inductive AuditResponse where
  | success (location : Str) (cards : Cards)
  | clientError (code : ℕ) (message : Str)
  | internalError (missingColumn : String)
deriving DecidableEq

/-- By-name access to a numeric cell of a snapshot record; the snapshot
written by the ETL has exactly the numeric columns `mobile_update_volume`,
`female_enrolment_pct` and `total_enrolment`, so any other name is a
`KeyError` (`none`). -/
def snapshotNumCol (r : CanonicalRecord) : String → Option PFloat
  | "mobile_update_volume" => some (.fin r.mobile_update_volume)
  | "female_enrolment_pct" => some r.female_enrolment_pct
  | "total_enrolment" => some (.fin r.total_enrolment)
  | _ => none

/-- By-name access to a whole numeric column of the snapshot DataFrame. -/
def dfNumColumn (rs : List CanonicalRecord) (c : String) : Option (List PFloat) :=
  if c = "mobile_update_volume" ∨ c = "female_enrolment_pct" ∨ c = "total_enrolment" then
    some (rs.map (fun r => (snapshotNumCol r c).getD .nan))
  else none

/-- Pandas column sum. -/
def psum (l : List PFloat) : PFloat := l.foldl padd (.fin 0)

/-- The MEMBER 4 FIX of `load_data`: strip and title-case both location
columns. -/
def loadClean (r : CanonicalRecord) : CanonicalRecord :=
  { r with State := pyTitle (pyStrip r.State), District := pyTitle (pyStrip r.District) }

/-- The data-cleaning layer of `get_audit_report`: replace `&`, strip and
title-case `State`; strip and title-case `District`. -/
def auditClean (r : CanonicalRecord) : CanonicalRecord :=
  { r with State := pyTitle (pyStrip (replaceAmp r.State))
           District := pyTitle (pyStrip r.District) }

/-- The cleaned DataFrame the audit handler filters (load-time cleaning
followed by the handler's own cleaning layer). -/
def cleanedDf (records : List CanonicalRecord) : List CanonicalRecord :=
  (records.map loadClean).map auditClean

/-- `state_df`: the cleaned rows whose `State` equals the cleaned target
(`target_state.strip().title()` — the query side applies no `&`
replacement). -/
def stateMatches (records : List CanonicalRecord) (ts : Str) : List CanonicalRecord :=
  (cleanedDf records).filter (fun r => decide (r.State = pyTitle (pyStrip ts)))

/-- `match_df`: the state rows whose `District` equals the cleaned target
district. -/
def districtMatches (state_df : List CanonicalRecord) (d : Str) : List CanonicalRecord :=
  state_df.filter (fun r => decide (r.District = pyTitle (pyStrip d)))

/-- The lowercased district sentinels recognized as a whole-region query. -/
def sentinelDistricts : List Str := [str "all", str "none", str ""]

/-- Whole-region branch of the audit handler: sum the
`Mobile_Number_Updates` column, average the `Gender_Female` column, build
the heuristic forecast `[int(v*1.05), int(v*1.1), int(v*1.15)]`. -/
def wholeRegionReport (state_df : List CanonicalRecord) (ts : Str) : AuditResponse :=
  match dfNumColumn state_df "Mobile_Number_Updates" with
  | none => .internalError "Mobile_Number_Updates"
  | some mvs =>
    match dfNumColumn state_df "Gender_Female" with
    | none => .internalError "Gender_Female"
    | some gvs =>
      let volume : ℤ := pyIntP (psum mvs)
      let ratio : PFloat := pdiv (psum gvs) (.fin gvs.length)
      let forecast_values : List ℤ :=
        [pyIntP (.fin ((volume * 105 : ℤ) / (100 : ℚ))),
         pyIntP (.fin ((volume * 110 : ℤ) / (100 : ℚ))),
         pyIntP (.fin ((volume * 115 : ℤ) / (100 : ℚ)))]
      .success (str "All " ++ ts) (analyze_logic volume ratio forecast_values)

/-- District branch of the audit handler: first matching row (`iloc[0]`),
heuristic forecast `[int(v*1.02), int(v*1.05), int(v*1.08)]`. -/
def districtReport (state_df : List CanonicalRecord) (d : Str) : AuditResponse :=
  match districtMatches state_df d with
  | [] => .clientError 404 (str "District not found")
  | rec :: _ =>
    match snapshotNumCol rec "Mobile_Number_Updates" with
    | none => .internalError "Mobile_Number_Updates"
    | some mv =>
      match snapshotNumCol rec "Gender_Female" with
      | none => .internalError "Gender_Female"
      | some gv =>
        let volume : ℤ := pyIntP mv
        let forecast_values : List ℤ :=
          [pyIntP (.fin ((volume * 102 : ℤ) / (100 : ℚ))),
           pyIntP (.fin ((volume * 105 : ℤ) / (100 : ℚ))),
           pyIntP (.fin ((volume * 108 : ℤ) / (100 : ℚ)))]
        .success rec.District (analyze_logic volume gv forecast_values)

/-- The `/api/audit` handler `get_audit_report`, given the parsed snapshot
artifact (assumed present — the 503 path is not modelled), the loaded
forecast artifact (module state the handler never reads), and the two query
parameters (`none` = absent).  A missing or empty `state` is a 400; an empty
snapshot is a DataFrame without columns, so the cleaning layer itself
raises `KeyError('State')`; an unmatched state is a 404; an absent, empty
or sentinel district aggregates the whole region, anything else resolves
one district row or 404s. -/
def get_audit_report (records : List CanonicalRecord) (forecast_model : ForecastArtifact)
    (target_state : Option Str) (target_district : Option Str) : AuditResponse :=
  match target_state with
  | none => .clientError 400 (str "State is required")
  | some ts =>
    if ts = [] then .clientError 400 (str "State is required")
    else if records = [] then .internalError "State"
    else
      let state_df := stateMatches records ts
      if state_df = [] then
        .clientError 404 (str "State '" ++ ts ++ str "' not found")
      else
        match target_district with
        | none => wholeRegionReport state_df ts
        | some d =>
          if d = [] || decide (toLowerStr d ∈ sentinelDistricts) then
            wholeRegionReport state_df ts
          else districtReport state_df d

/-!
Concrete inputs used by witness evaluations.
-/

/-- Concrete snapshot record of a Goa district. -/
def recGoa : CanonicalRecord := ⟨str "Goa", str "Panaji", 10, .fin (mkRat 1 2), 100⟩

/-- Concrete trained bundle for Goa. -/
def bundleGoa : ForecastBundle := ⟨[11, 12, 13], mkRat 941 10, .INCREASING⟩

/-- Enrolment row whose age brackets sum to zero. -/
def enrolRowZero : RawEnrolRow := ⟨str "ta", str "a", 0, 0, 0⟩

/-- Enrolment row whose age brackets sum to six. -/
def enrolRowSix : RawEnrolRow := ⟨str "ta", str "a", 1, 2, 3⟩

/-- Biometric row under a different district key. -/
def bioRowOther : RawBioRow := ⟨str "ta", str "b", 1, 1⟩

/-- Demographic row under the enrolment key. -/
def demoRowSame : RawDemoRow := ⟨str "ta", str "a", 3, 4⟩

/-- Demographic row under a different district key. -/
def demoRowOther : RawDemoRow := ⟨str "ta", str "b", 2, 2⟩

/-- Snapshot record produced from `enrolRowZero`: zero total enrolment, NaN
ratio. -/
def recZeroTotal : CanonicalRecord := ⟨str "Ta", str "A", 7, .nan, 0⟩

/-- Merged row produced from `enrolRowSix` with both contributions
zero-filled. -/
def filledRowSix : FilledRow := ⟨(str "Ta", str "A"), 6, 0, 0⟩

/-!
Codepoint lemmas for the normalizer.
-/

/-- Unfolding of the uppercase test. -/
theorem isUpperCp_iff {n : Nat} : isUpperCp n = true ↔ 65 ≤ n ∧ n ≤ 90 := by
  simp [isUpperCp]

/-- Unfolding of the lowercase test. -/
theorem isLowerCp_iff {n : Nat} : isLowerCp n = true ↔ 97 ≤ n ∧ n ≤ 122 := by
  simp [isLowerCp]

/-- Unfolding of the letter test. -/
theorem isAlphaCp_iff {n : Nat} :
    isAlphaCp n = true ↔ (65 ≤ n ∧ n ≤ 90) ∨ (97 ≤ n ∧ n ≤ 122) := by
  simp [isAlphaCp, isUpperCp, isLowerCp]

/-- Lowercasing an uppercase letter shifts it by 32. -/
theorem toLowerCp_of_upper {n : Nat} (h : isUpperCp n = true) : toLowerCp n = n + 32 := by
  simp [toLowerCp, h]

/-- Lowercasing fixes anything that is not an uppercase letter. -/
theorem toLowerCp_of_not_upper {n : Nat} (h : ¬isUpperCp n = true) : toLowerCp n = n := by
  simp [toLowerCp, h]

/-- Uppercasing a lowercase letter shifts it by 32. -/
theorem toUpperCp_of_lower {n : Nat} (h : isLowerCp n = true) : toUpperCp n = n - 32 := by
  simp [toUpperCp, h]

/-- Uppercasing fixes anything that is not a lowercase letter. -/
theorem toUpperCp_of_not_lower {n : Nat} (h : ¬isLowerCp n = true) : toUpperCp n = n := by
  simp [toUpperCp, h]

/-- Lowercasing a letter yields a lowercase letter. -/
theorem isLower_toLowerCp {n : Nat} (h : isAlphaCp n = true) :
    isLowerCp (toLowerCp n) = true := by
  rcases isAlphaCp_iff.mp h with hu | hl
  · rw [toLowerCp_of_upper (isUpperCp_iff.mpr hu), isLowerCp_iff]; omega
  · rw [toLowerCp_of_not_upper (fun hc => by have := isUpperCp_iff.mp hc; omega),
      isLowerCp_iff]; omega

/-- Uppercasing a letter yields an uppercase letter. -/
theorem isUpper_toUpperCp {n : Nat} (h : isAlphaCp n = true) :
    isUpperCp (toUpperCp n) = true := by
  rcases isAlphaCp_iff.mp h with hu | hl
  · rw [toUpperCp_of_not_lower (fun hc => by have := isLowerCp_iff.mp hc; omega),
      isUpperCp_iff]; omega
  · rw [toUpperCp_of_lower (isLowerCp_iff.mpr hl), isUpperCp_iff]; omega

/-- Lowercasing fixes lowercase letters. -/
theorem toLowerCp_of_lower {n : Nat} (h : isLowerCp n = true) : toLowerCp n = n := by
  refine toLowerCp_of_not_upper (fun hc => ?_)
  have := isUpperCp_iff.mp hc
  have := isLowerCp_iff.mp h
  omega

/-- Uppercasing fixes uppercase letters. -/
theorem toUpperCp_of_upper {n : Nat} (h : isUpperCp n = true) : toUpperCp n = n := by
  refine toUpperCp_of_not_lower (fun hc => ?_)
  have := isLowerCp_iff.mp hc
  have := isUpperCp_iff.mp h
  omega

/-- Lowercase letters are letters. -/
theorem alpha_of_lower {n : Nat} (h : isLowerCp n = true) : isAlphaCp n = true := by
  rw [isAlphaCp_iff]; right; exact isLowerCp_iff.mp h

/-- Uppercase letters are letters. -/
theorem alpha_of_upper {n : Nat} (h : isUpperCp n = true) : isAlphaCp n = true := by
  rw [isAlphaCp_iff]; left; exact isUpperCp_iff.mp h

/-- Letters are not whitespace. -/
theorem not_space_of_alpha {n : Nat} (h : isAlphaCp n = true) : isSpaceCp n = false := by
  have := isAlphaCp_iff.mp h
  simp only [isSpaceCp, Bool.or_eq_false_iff, decide_eq_false_iff_not]
  omega

/-- Letters are not the ampersand. -/
theorem amp_ne_of_alpha {n : Nat} (h : isAlphaCp n = true) : n ≠ 38 := by
  have := isAlphaCp_iff.mp h
  omega

/-- Transforming a character twice with the same flag changes nothing. -/
theorem titleChar_titleChar (b : Bool) (c : Nat) :
    titleChar b (titleChar b c) = titleChar b c := by
  by_cases ha : isAlphaCp c = true
  · cases b with
    | false =>
      have h1 : titleChar false c = toUpperCp c := by simp [titleChar, ha]
      have h2 : isAlphaCp (toUpperCp c) = true := alpha_of_upper (isUpper_toUpperCp ha)
      rw [h1]
      simp [titleChar, h2, toUpperCp_of_upper (isUpper_toUpperCp ha)]
    | true =>
      have h1 : titleChar true c = toLowerCp c := by simp [titleChar, ha]
      have h2 : isAlphaCp (toLowerCp c) = true := alpha_of_lower (isLower_toLowerCp ha)
      rw [h1]
      simp [titleChar, h2, toLowerCp_of_lower (isLower_toLowerCp ha)]
  · simp [titleChar, ha]

/-- The transform preserves letter-hood. -/
theorem isAlpha_titleChar (b : Bool) (c : Nat) : isAlphaCp (titleChar b c) = isAlphaCp c := by
  by_cases ha : isAlphaCp c = true
  · cases b with
    | false => simp [titleChar, ha, alpha_of_upper (isUpper_toUpperCp ha)]
    | true => simp [titleChar, ha, alpha_of_lower (isLower_toLowerCp ha)]
  · simp [titleChar, ha]

/-- Title-casing is idempotent for every starting flag. -/
theorem titleAux_titleAux (l : Str) : ∀ b, titleAux b (titleAux b l) = titleAux b l := by
  induction l with
  | nil => intro b; rfl
  | cons c cs ih =>
    intro b
    simp only [titleAux]
    rw [titleChar_titleChar, isAlpha_titleChar, ih (isAlphaCp c)]

/-!
List-level lemmas for the normalizer.
-/

/-- Unfolding of `replaceAmp` on a cons as an append. -/
theorem replaceAmp_cons (a : Nat) (as : Str) :
    replaceAmp (a :: as) = (if a = 38 then [65, 110, 100] else [a]) ++ replaceAmp as := by
  by_cases ha : a = 38 <;> simp [replaceAmp, ha]

/-- Replacement produces the empty string only from the empty string. -/
theorem replaceAmp_eq_nil_iff {l : Str} : replaceAmp l = [] ↔ l = [] := by
  cases l with
  | nil => simp [replaceAmp]
  | cons a as => by_cases ha : a = 38 <;> simp [replaceAmp_cons, ha]

/-- Title-casing produces the empty string only from the empty string. -/
theorem titleAux_eq_nil_iff {b : Bool} {l : Str} : titleAux b l = [] ↔ l = [] := by
  cases l <;> simp [titleAux]

/-- Output of `replaceAmp` contains no ampersand. -/
theorem no_amp_replaceAmp (l : Str) : ∀ c ∈ replaceAmp l, c ≠ 38 := by
  induction l with
  | nil => simp [replaceAmp]
  | cons a as ih =>
    intro c hc
    rw [replaceAmp_cons] at hc
    rcases List.mem_append.mp hc with h1 | h2
    · by_cases ha : a = 38
      · rw [if_pos ha] at h1
        simp only [List.mem_cons, List.not_mem_nil, or_false] at h1
        rcases h1 with rfl | rfl | rfl <;> omega
      · rw [if_neg ha] at h1
        simp only [List.mem_singleton] at h1
        subst h1; exact ha
    · exact ih c h2

/-- Replacement fixes ampersand-free strings. -/
theorem replaceAmp_of_no_amp {l : Str} (h : ∀ c ∈ l, c ≠ 38) : replaceAmp l = l := by
  induction l with
  | nil => rfl
  | cons a as ih =>
    rw [replaceAmp_cons, if_neg (h a (by simp))]
    simp [ih (fun c hc => h c (by simp [hc]))]

/-- Title-casing preserves ampersand-freeness. -/
theorem no_amp_titleAux {l : Str} (b : Bool) (h : ∀ c ∈ l, c ≠ 38) :
    ∀ c ∈ titleAux b l, c ≠ 38 := by
  induction l generalizing b with
  | nil => simp [titleAux]
  | cons a as ih =>
    intro c hc
    simp only [titleAux, List.mem_cons] at hc
    rcases hc with rfl | hc
    · by_cases ha : isAlphaCp a = true
      · exact amp_ne_of_alpha (by rw [isAlpha_titleChar]; exact ha)
      · rw [titleChar, if_neg ha]
        exact h a (by simp)
    · exact ih (isAlphaCp a) (fun c' hc' => h c' (by simp [hc'])) c hc

/-- A head-test failure keeps `dropWhile` from dropping anything. -/
theorem dropWhile_eq_self_of_head {p : Nat → Bool} {l : Str}
    (h : ∀ c, l.head? = some c → p c = false) : l.dropWhile p = l := by
  cases l with
  | nil => rfl
  | cons a as => rw [List.dropWhile_cons, if_neg (by simp [h a rfl])]

/-- The head surviving `dropWhile` fails the predicate. -/
theorem head_dropWhile_false {p : Nat → Bool} (l : Str) :
    ∀ c, (l.dropWhile p).head? = some c → p c = false := by
  induction l with
  | nil => intro c hc; simp at hc
  | cons a as ih =>
    intro c hc
    rw [List.dropWhile_cons] at hc
    by_cases hp : p a = true
    · rw [if_pos hp] at hc; exact ih c hc
    · rw [if_neg hp] at hc
      simp only [List.head?_cons, Option.some.injEq] at hc
      subst hc
      simpa using hp

/-- `dropWhile` keeps the last element when its output is nonempty. -/
theorem getLast_dropWhile {p : Nat → Bool} (l : Str) (h : l.dropWhile p ≠ []) :
    (l.dropWhile p).getLast? = l.getLast? := by
  induction l with
  | nil => simp at h
  | cons a as ih =>
    rw [List.dropWhile_cons]
    by_cases hp : p a = true
    · rw [if_pos hp]
      have h2 : as.dropWhile p ≠ [] := by
        rw [List.dropWhile_cons, if_pos hp] at h; exact h
      rw [ih h2]
      cases as with
      | nil => simp at h2
      | cons a' as' => rw [List.getLast?_cons_cons]
    · rw [if_neg hp]

/-- The stripped string does not start with whitespace. -/
theorem head_nonspace_pyStrip (s : Str) :
    ∀ c, (pyStrip s).head? = some c → isSpaceCp c = false := by
  intro c hc
  unfold pyStrip at hc
  rw [List.head?_reverse] at hc
  by_cases hB : ((s.dropWhile isSpaceCp).reverse).dropWhile isSpaceCp = []
  · rw [hB] at hc; simp at hc
  · rw [getLast_dropWhile _ hB, List.getLast?_reverse] at hc
    exact head_dropWhile_false s c hc

/-- The stripped string does not end with whitespace. -/
theorem last_nonspace_pyStrip (s : Str) :
    ∀ c, (pyStrip s).getLast? = some c → isSpaceCp c = false := by
  intro c hc
  unfold pyStrip at hc
  rw [List.getLast?_reverse] at hc
  exact head_dropWhile_false _ c hc

/-- Stripping fixes a string with no whitespace at either end. -/
theorem pyStrip_eq_self {l : Str}
    (h1 : ∀ c, l.head? = some c → isSpaceCp c = false)
    (h2 : ∀ c, l.getLast? = some c → isSpaceCp c = false) : pyStrip l = l := by
  unfold pyStrip
  rw [dropWhile_eq_self_of_head h1,
    dropWhile_eq_self_of_head (fun c hc => h2 c (by rwa [List.head?_reverse] at hc))]
  exact List.reverse_reverse l

/-- Replacement keeps a non-whitespace first character non-whitespace. -/
theorem head_nonspace_replaceAmp {l : Str}
    (h : ∀ c, l.head? = some c → isSpaceCp c = false) :
    ∀ c, (replaceAmp l).head? = some c → isSpaceCp c = false := by
  cases l with
  | nil => intro c hc; simp [replaceAmp] at hc
  | cons a as =>
    intro c hc
    by_cases ha : a = 38
    · rw [replaceAmp_cons, if_pos ha] at hc
      simp only [List.cons_append, List.head?_cons, Option.some.injEq] at hc
      subst hc; decide
    · rw [replaceAmp_cons, if_neg ha] at hc
      simp only [List.cons_append, List.nil_append, List.head?_cons, Option.some.injEq] at hc
      subst hc; exact h a rfl

/-- Replacement keeps a non-whitespace last character non-whitespace. -/
theorem last_nonspace_replaceAmp {l : Str}
    (h : ∀ c, l.getLast? = some c → isSpaceCp c = false) :
    ∀ c, (replaceAmp l).getLast? = some c → isSpaceCp c = false := by
  induction l with
  | nil => intro c hc; simp [replaceAmp] at hc
  | cons a as ih =>
    intro c hc
    cases as with
    | nil =>
      by_cases ha : a = 38
      · rw [replaceAmp_cons, if_pos ha] at hc
        simp only [replaceAmp, List.append_nil] at hc
        have : c = 100 := by
          have h100 : ([65, 110, 100] : Str).getLast? = some 100 := by decide
          rw [h100] at hc
          exact (Option.some.injEq _ _ ▸ hc.symm)
        subst this; decide
      · rw [replaceAmp_cons, if_neg ha] at hc
        simp only [replaceAmp, List.append_nil] at hc
        simp only [List.getLast?_singleton, Option.some.injEq] at hc
        subst hc
        exact h a (by simp [List.getLast?_singleton])
    | cons a' as' =>
      rw [replaceAmp_cons,
        List.getLast?_append_of_ne_nil _ (by simp [replaceAmp_eq_nil_iff])] at hc
      exact ih (fun c' hc' => h c' (by rw [List.getLast?_cons_cons]; exact hc')) c hc

/-- Title-casing keeps a non-whitespace first character non-whitespace. -/
theorem head_nonspace_titleAux {l : Str} (b : Bool)
    (h : ∀ c, l.head? = some c → isSpaceCp c = false) :
    ∀ c, (titleAux b l).head? = some c → isSpaceCp c = false := by
  cases l with
  | nil => intro c hc; simp [titleAux] at hc
  | cons a as =>
    intro c hc
    simp only [titleAux, List.head?_cons, Option.some.injEq] at hc
    subst hc
    by_cases ha : isAlphaCp a = true
    · exact not_space_of_alpha (by rw [isAlpha_titleChar]; exact ha)
    · rw [titleChar, if_neg ha]
      exact h a rfl

/-- Title-casing keeps a non-whitespace last character non-whitespace. -/
theorem last_nonspace_titleAux {l : Str} :
    ∀ b : Bool, (∀ c, l.getLast? = some c → isSpaceCp c = false) →
    ∀ c, (titleAux b l).getLast? = some c → isSpaceCp c = false := by
  induction l with
  | nil => intro b h c hc; simp [titleAux] at hc
  | cons a as ih =>
    intro b h c hc
    cases as with
    | nil =>
      simp only [titleAux, List.getLast?_singleton, Option.some.injEq] at hc
      subst hc
      by_cases ha : isAlphaCp a = true
      · exact not_space_of_alpha (by rw [isAlpha_titleChar]; exact ha)
      · rw [titleChar, if_neg ha]
        exact h a (by simp [List.getLast?_singleton])
    | cons a' as' =>
      simp only [titleAux] at hc
      rw [List.getLast?_cons_cons] at hc
      exact ih (isAlphaCp a)
        (fun c' hc' => h c' (by rw [List.getLast?_cons_cons]; exact hc')) c hc

/-- C5: location normalization is idempotent —
`normalize(normalize(x)) = normalize(x)` for every input string, covering
mixed case, surrounding whitespace, the ampersand conjunction, and the
empty string. -/
theorem claim_C5_normalize_idempotent (x : Str) :
    normalize_location (normalize_location x) = normalize_location x := by
  unfold normalize_location pyTitle
  have hyh := head_nonspace_pyStrip x
  have hyl := last_nonspace_pyStrip x
  have hzh := head_nonspace_replaceAmp hyh
  have hzl := last_nonspace_replaceAmp hyl
  have hwh := head_nonspace_titleAux false hzh
  have hwl := last_nonspace_titleAux false hzl
  have hwamp := no_amp_titleAux false (no_amp_replaceAmp (pyStrip x))
  rw [pyStrip_eq_self hwh hwl, replaceAmp_of_no_amp hwamp, titleAux_titleAux]

/-!
Claim theorems: the audit engine.
-/

/-- C10: `analyze_logic` reports the security pillar CRITICAL exactly when
the volume strictly exceeds 1000 (SAFE otherwise), and the inclusivity
pillar WARNING exactly when the ratio is strictly below 0.40 (SAFE
otherwise), with these fixed constants and strict comparisons. -/
theorem claim_C10_pillar_thresholds (v : ℤ) (q : ℚ) (fv : List ℤ) :
    (((analyze_logic v (.fin q) fv).security.status = "CRITICAL") ↔ 1000 < v)
    ∧ (((analyze_logic v (.fin q) fv).security.status = "SAFE") ↔ ¬1000 < v)
    ∧ (((analyze_logic v (.fin q) fv).inclusivity.status = "WARNING") ↔ q < 2 / 5)
    ∧ (((analyze_logic v (.fin q) fv).inclusivity.status = "SAFE") ↔ ¬q < 2 / 5) := by
  have hm : (mkRat 2 5 : ℚ) = 2 / 5 := by rw [Rat.mkRat_eq_div]; norm_num
  have hp : pltB (.fin q) (.fin (mkRat 2 5)) = decide (q < 2 / 5) := by
    simp [pltB, hm]
  unfold analyze_logic
  rw [hp]
  by_cases h1 : 1000 < v <;> by_cases h2 : q < 2 / 5 <;> simp [h1, h2]

/-- C3: when any of the three source categories yields no rows, the batch
run aborts before writing and the prior snapshot artifact is unchanged. -/
theorem claim_C3_fail_fast (prev : Option (List CanonicalRecord))
    (e : List RawEnrolRow) (b : List RawBioRow) (d : List RawDemoRow)
    (h : e = [] ∨ b = [] ∨ d = []) : runBatch prev e b d = prev := by
  have habort : etlMain e b d = none := by
    rcases h with rfl | rfl | rfl <;> simp [etlMain]
  simp [runBatch, habort]

/-- Witness for C3 at a concrete aborted run: an empty enrolment category
leaves the existing snapshot in place. -/
theorem claim_C3_fail_fast_witness :
    runBatch (some [recZeroTotal]) [] [bioRowOther] [demoRowSame] = some [recZeroTotal] :=
  claim_C3_fail_fast (some [recZeroTotal]) [] [bioRowOther] [demoRowSame] (Or.inl rfl)

/-- C6 (the code contradicts the claim): the audit handler never consults
the loaded forecast artifact — its response is identical whatever the
artifact contains — and a whole-region query on a state that has a trained
bundle does not report the bundle's values: it dies with
`KeyError('Mobile_Number_Updates')` instead of producing any forecast. -/
theorem claim_C6_forecast_bundle_never_used :
    (∀ (records : List CanonicalRecord) (fb fb' : ForecastArtifact)
        (st di : Option Str),
        get_audit_report records fb st di = get_audit_report records fb' st di)
    ∧ get_audit_report [recGoa] [(str "Goa", bundleGoa)] (some (str "Goa")) none =
        .internalError "Mobile_Number_Updates" := by
  refine ⟨fun records fb fb' st di => rfl, by decide⟩

/-- C1 (the code contradicts the claim): for every snapshot and state whose
filter matches at least one row, the whole-region audit query does not
succeed with the summed volume — it raises a `KeyError` on the column
`Mobile_Number_Updates`, because the handler reads column names the ETL
snapshot does not contain. -/
theorem claim_C1_whole_region_key_error (records : List CanonicalRecord)
    (fb : ForecastArtifact) (s : Str) (hs : ¬s = [])
    (hr : ¬records = []) (hm : ¬stateMatches records s = []) :
    get_audit_report records fb (some s) none = .internalError "Mobile_Number_Updates" := by
  have hcol : dfNumColumn (stateMatches records s) "Mobile_Number_Updates" = none := by
    unfold dfNumColumn
    rw [if_neg (by decide)]
  simp only [get_audit_report]
  rw [if_neg hs, if_neg hr, if_neg hm]
  show wholeRegionReport (stateMatches records s) s = _
  unfold wholeRegionReport
  rw [hcol]

/-- Witness for C1: the concrete Goa snapshot with a whole-region query. -/
theorem claim_C1_whole_region_key_error_witness :
    get_audit_report [recGoa] [] (some (str "Goa")) none =
      .internalError "Mobile_Number_Updates" :=
  claim_C1_whole_region_key_error [recGoa] [] (str "Goa") (by decide) (by decide) (by decide)

/-- C9: the three error outcomes of the audit query are structured
responses — missing/empty state parameter is a 400 with "State is
required", an unmatched state is a 404 echoing the state name, an unmatched
district is a 404 with "District not found" — and the three messages are
pairwise distinct, so district-level misses are distinguished from
state-level misses. -/
theorem claim_C9_error_outcomes :
    (∀ (records : List CanonicalRecord) (fb : ForecastArtifact) (di : Option Str),
        get_audit_report records fb none di = .clientError 400 (str "State is required")
        ∧ get_audit_report records fb (some []) di =
            .clientError 400 (str "State is required"))
    ∧ (∀ (records : List CanonicalRecord) (fb : ForecastArtifact) (s : Str)
          (di : Option Str),
        ¬s = [] → ¬records = [] → stateMatches records s = [] →
        get_audit_report records fb (some s) di =
          .clientError 404 (str "State '" ++ s ++ str "' not found"))
    ∧ (∀ (records : List CanonicalRecord) (fb : ForecastArtifact) (s d : Str),
        ¬s = [] → ¬records = [] → ¬stateMatches records s = [] →
        (d = [] || decide (toLowerStr d ∈ sentinelDistricts)) = false →
        districtMatches (stateMatches records s) d = [] →
        get_audit_report records fb (some s) (some d) =
          .clientError 404 (str "District not found"))
    ∧ (∀ s : Str,
        str "State is required" ≠ str "State '" ++ s ++ str "' not found"
        ∧ str "State is required" ≠ str "District not found"
        ∧ str "State '" ++ s ++ str "' not found" ≠ str "District not found") := by
  refine ⟨fun records fb di => ⟨rfl, by simp [get_audit_report]⟩, ?_, ?_, ?_⟩
  · intro records fb s di hs hr hm
    simp only [get_audit_report]
    rw [if_neg hs, if_neg hr, if_pos hm]
  · intro records fb s d hs hr hm hsent hd
    simp only [get_audit_report]
    rw [if_neg hs, if_neg hr, if_neg hm]
    show (if (d = [] || decide (toLowerStr d ∈ sentinelDistricts)) = true then _ else
      districtReport (stateMatches records s) d) = _
    rw [hsent]
    show districtReport (stateMatches records s) d = _
    unfold districtReport
    rw [hd]
  · intro s
    refine ⟨?_, by decide, ?_⟩
    · intro h
      have hlen := congrArg List.length h
      rw [List.length_append, List.length_append] at hlen
      have e1 : (str "State is required").length = 17 := by decide
      have e2 : (str "State '").length = 7 := by decide
      have e3 : (str "' not found").length = 11 := by decide
      rw [e1, e2, e3] at hlen
      omega
    · intro h
      have h2 := congrArg (List.take 7) h
      rw [List.append_assoc] at h2
      have e2 : (str "State '").length = 7 := by decide
      rw [← e2] at h2
      rw [List.take_left] at h2
      exact absurd h2 (by decide)

/-- Witness for C9 at concrete queries: an unknown state and an unknown
district of a known state produce the two distinct 404 responses. -/
theorem claim_C9_error_outcomes_witness :
    get_audit_report [recGoa] [] (some (str "Kerala")) none =
      .clientError 404 (str "State '" ++ str "Kerala" ++ str "' not found")
    ∧ get_audit_report [recGoa] [] (some (str "Goa")) (some (str "Margao")) =
      .clientError 404 (str "District not found") :=
  ⟨claim_C9_error_outcomes.2.1 [recGoa] [] (str "Kerala") none (by decide) (by decide)
      (by decide),
    claim_C9_error_outcomes.2.2.1 [recGoa] [] (str "Goa") (str "Margao") (by decide)
      (by decide) (by decide) (by decide) (by decide)⟩

/-!
Claim theorems: the ETL pipeline.
-/

/-- Unfolding of float division on two finite values. -/
theorem pdiv_fin_fin (a b : ℚ) :
    pdiv (.fin a) (.fin b) =
      if b = 0 then (if a = 0 then .nan else if 0 < a then .inf else .ninf)
      else .fin (a / b) := rfl

/-- A ratio with zero denominator serializes as JSON null. -/
theorem jsonOfP_ratio_zero_den (a : ℚ) :
    jsonOfP (pround3 (pdiv (.fin a) (.fin 0))) = JsonVal.null := by
  rw [pdiv_fin_fin, if_pos rfl]
  by_cases h0 : a = 0
  · simp [h0, pround3, jsonOfP]
  · by_cases h1 : 0 < a <;> simp [h0, h1, pround3, jsonOfP]

/-- A ratio with nonzero denominator serializes as a JSON number. -/
theorem jsonOfP_ratio_nonzero_den (a b : ℚ) (hb : ¬b = 0) :
    jsonOfP (pround3 (pdiv (.fin a) (.fin b))) = JsonVal.num (roundDecimals 3 (a / b)) := by
  rw [pdiv_fin_fin, if_neg hb]
  rfl

/-- C2: in every snapshot the batch run emits, a record with zero total
enrolment carries the JSON `null` sentinel for `female_enrolment_pct` — the
non-finite division result that pandas `to_json` serializes as null — and a
record with nonzero total enrolment carries a JSON number; a NaN token is
never written. -/
theorem claim_C2_zero_total_policy (e : List RawEnrolRow) (b : List RawBioRow)
    (d : List RawDemoRow) (out : List CanonicalRecord) (h : etlMain e b d = some out) :
    ∀ r ∈ out,
      (r.total_enrolment = 0 → jsonOfP r.female_enrolment_pct = JsonVal.null)
      ∧ (¬r.total_enrolment = 0 → ∃ q : ℚ, jsonOfP r.female_enrolment_pct = JsonVal.num q) := by
  have hout : out = (mergedFilled e b d).map canonicalOf := by
    unfold etlMain at h
    split at h
    · exact absurd h (by simp)
    · split at h
      · exact absurd h (by simp)
      · split at h
        · exact absurd h (by simp)
        · simpa using h.symm
  subst hout
  intro r hr
  rcases List.mem_map.mp hr with ⟨fr, _, rfl⟩
  constructor
  · intro h0
    have hz : fr.total_enrolment = 0 := h0
    show jsonOfP (pround3 (pdiv (.fin fr.female_count) (.fin fr.total_enrolment))) = _
    rw [hz, Int.cast_zero]
    exact jsonOfP_ratio_zero_den _
  · intro h0
    have hz : ¬fr.total_enrolment = 0 := h0
    refine ⟨roundDecimals 3 ((fr.female_count : ℚ) / (fr.total_enrolment : ℚ)), ?_⟩
    show jsonOfP (pround3 (pdiv (.fin fr.female_count) (.fin fr.total_enrolment))) = _
    exact jsonOfP_ratio_nonzero_den _ _ (by exact_mod_cast hz)

/-- Witness for C2: the concrete batch run whose single merged record has
zero total enrolment serializes its ratio as null. -/
theorem claim_C2_zero_total_policy_witness :
    jsonOfP recZeroTotal.female_enrolment_pct = JsonVal.null :=
  (claim_C2_zero_total_policy [enrolRowZero] [bioRowOther] [demoRowSame] [recZeroTotal]
    (by decide) recZeroTotal (by decide)).1 (by decide)

/-- Membership in the deduplication scanner. -/
theorem mem_dedupAux (a : Key) :
    ∀ (l seen : List Key), a ∈ dedupAux seen l ↔ a ∈ l ∧ a ∉ seen := by
  intro l
  induction l with
  | nil => intro seen; simp [dedupAux]
  | cons k ks ih =>
    intro seen
    by_cases hk : k ∈ seen
    · rw [dedupAux, if_pos hk, ih seen]
      simp only [List.mem_cons]
      constructor
      · rintro ⟨h1, h2⟩
        exact ⟨Or.inr h1, h2⟩
      · rintro ⟨h1 | h1, h2⟩
        · subst h1; exact absurd hk h2
        · exact ⟨h1, h2⟩
    · rw [dedupAux, if_neg hk]
      simp only [List.mem_cons, ih (k :: seen)]
      constructor
      · rintro (rfl | ⟨h1, h2⟩)
        · exact ⟨Or.inl rfl, hk⟩
        · exact ⟨Or.inr h1, fun hs => h2 (Or.inr hs)⟩
      · rintro ⟨h1 | h1, h2⟩
        · exact Or.inl h1
        · by_cases hak : a = k
          · exact Or.inl hak
          · exact Or.inr ⟨h1, fun hor => hor.elim hak h2⟩

/-- The deduplication scanner emits each key at most once. -/
theorem nodup_dedupAux : ∀ (l seen : List Key), (dedupAux seen l).Nodup := by
  intro l
  induction l with
  | nil => intro seen; simp [dedupAux]
  | cons k ks ih =>
    intro seen
    by_cases hk : k ∈ seen
    · rw [dedupAux, if_pos hk]; exact ih seen
    · rw [dedupAux, if_neg hk, List.nodup_cons]
      refine ⟨fun hmem => ?_, ih (k :: seen)⟩
      exact ((mem_dedupAux k ks (k :: seen)).mp hmem).2 (List.mem_cons_self k seen)

/-- Inserting into the sorted list is a permutation of consing. -/
theorem insertKey_perm (k : Key) (l : List Key) : List.Perm (insertKey k l) (k :: l) := by
  induction l with
  | nil => exact List.Perm.refl _
  | cons a as ih =>
    rw [insertKey]
    by_cases h : keyLeB k a = true
    · rw [if_pos h]
    · rw [if_neg h]
      exact (List.Perm.cons a ih).trans (List.Perm.swap k a as)

/-- Sorting the group keys permutes them. -/
theorem sortKeys_perm (l : List Key) : List.Perm (sortKeys l) l := by
  induction l with
  | nil => exact List.Perm.refl _
  | cons a as ih =>
    rw [sortKeys]
    exact (insertKey_perm a (sortKeys as)).trans (List.Perm.cons a ih)

/-- The key column of a grouped aggregate. -/
theorem groupSum_keys (l : List (Key × ℤ)) :
    (groupSum l).map Prod.fst = sortKeys (dedupF (l.map Prod.fst)) := by
  unfold groupSum
  rw [List.map_map]
  have hid : (Prod.fst ∘ fun k : Key => (k, sumForKey k l)) = id := rfl
  rw [hid, List.map_id]

/-- Group keys are distinct. -/
theorem nodup_groupSum_keys (l : List (Key × ℤ)) : ((groupSum l).map Prod.fst).Nodup := by
  rw [groupSum_keys]
  exact ((sortKeys_perm _).nodup_iff).mpr (nodup_dedupAux _ [])

/-- A key appears in the aggregate exactly when some row carries it. -/
theorem mem_groupSum_keys {k : Key} {l : List (Key × ℤ)} :
    k ∈ (groupSum l).map Prod.fst ↔ k ∈ l.map Prod.fst := by
  rw [groupSum_keys, (sortKeys_perm _).mem_iff]
  unfold dedupF
  rw [mem_dedupAux]
  simp

/-- Counting a member of a duplicate-free list. -/
theorem countP_eq_one_of_nodup {l : List Key} {k : Key} (hn : l.Nodup) (hm : k ∈ l) :
    l.countP (fun x => decide (x = k)) = 1 := by
  induction l with
  | nil => simp at hm
  | cons a as ih =>
    rw [List.countP_cons]
    by_cases hak : a = k
    · subst hak
      have ha : a ∉ as := (List.nodup_cons.mp hn).1
      have h0 : as.countP (fun x => decide (x = a)) = 0 :=
        List.countP_eq_zero.mpr (fun x hx => by
          simp only [decide_eq_true_eq]
          rintro rfl
          exact ha hx)
      simp [h0]
    · have hm2 : k ∈ as := by
        rcases List.mem_cons.mp hm with h | h
        · exact absurd h.symm hak
        · exact h
      have hcount := ih (List.nodup_cons.mp hn).2 hm2
      simp [hcount, hak]

/-- Key multiplicity survives the merge and the zero-fill. -/
theorem merged_countP (eA bA dA : List (Key × ℤ)) (k : Key) :
    (fillna (mergeRows eA bA dA)).countP (fun r => decide (r.key = k))
      = eA.countP (fun p => decide (p.1 = k)) := by
  unfold fillna mergeRows
  rw [List.map_map, List.countP_map]
  rfl

/-- A grouped aggregate carries each of its keys exactly once. -/
theorem groupSum_countP (l : List (Key × ℤ)) (k : Key)
    (hk : k ∈ (groupSum l).map Prod.fst) :
    (groupSum l).countP (fun p => decide (p.1 = k)) = 1 := by
  have h1 : (groupSum l).countP (fun p => decide (p.1 = k))
      = ((groupSum l).map Prod.fst).countP (fun x => decide (x = k)) := by
    rw [List.countP_map]
    rfl
  rw [h1]
  exact countP_eq_one_of_nodup (nodup_groupSum_keys l) hk

/-- Shape of one merged, zero-filled row. -/
theorem merged_row_shape (eA bA dA : List (Key × ℤ)) {r : FilledRow}
    (hr : r ∈ fillna (mergeRows eA bA dA)) :
    ∃ p ∈ eA, r = ⟨p.1, p.2, (lookupK p.1 bA).getD 0, (lookupK p.1 dA).getD 0⟩ := by
  unfold fillna mergeRows at hr
  rw [List.map_map] at hr
  rcases List.mem_map.mp hr with ⟨p, hp, rfl⟩
  exact ⟨p, hp, rfl⟩

/-- A key absent from an aggregate's key column looks up to nothing. -/
theorem lookupK_eq_none_of_not_mem {k : Key} {l : List (Key × ℤ)}
    (h : k ∉ l.map Prod.fst) : lookupK k l = none := by
  unfold lookupK
  rw [List.find?_eq_none.mpr]
  · rfl
  · intro x hx
    simp only [decide_eq_true_eq]
    intro heq
    exact h (List.mem_map.mpr ⟨x, hx, heq⟩)

/-- C4: every key of the enrolment aggregate appears exactly once in the
merged, zero-filled table, and when the key is absent from the biometric or
demographic aggregate the corresponding contribution (`female_count`,
`mobile_update_volume`) is filled with zero rather than the key being
dropped. -/
theorem claim_C4_left_join_zero_fill (e : List RawEnrolRow) (b : List RawBioRow)
    (d : List RawDemoRow) (k : Key)
    (hk : k ∈ (enrolAgg (e.map normEnrolRow)).map Prod.fst) :
    ((mergedFilled e b d).countP (fun r => decide (r.key = k)) = 1)
    ∧ (∀ r ∈ mergedFilled e b d, r.key = k →
        (k ∉ (bioAgg (b.map normBioRow)).map Prod.fst → r.female_count = 0)
        ∧ (k ∉ (demoAgg (d.map normDemoRow)).map Prod.fst →
            r.mobile_update_volume = 0)) := by
  unfold mergedFilled
  constructor
  · rw [merged_countP]
    exact groupSum_countP _ k hk
  · intro r hr hkey
    rcases merged_row_shape _ _ _ hr with ⟨p, _, rfl⟩
    have hkey' : p.1 = k := hkey
    constructor
    · intro hb
      show (lookupK p.1 (bioAgg (b.map normBioRow))).getD 0 = 0
      rw [hkey', lookupK_eq_none_of_not_mem hb]
      rfl
    · intro hd
      show (lookupK p.1 (demoAgg (d.map normDemoRow))).getD 0 = 0
      rw [hkey', lookupK_eq_none_of_not_mem hd]
      rfl

/-- Witness for C4: the enrolment key absent from both other aggregates
yields exactly one merged row with both contributions zero. -/
theorem claim_C4_left_join_zero_fill_witness :
    ((mergedFilled [enrolRowSix] [bioRowOther] [demoRowOther]).countP
        (fun r => decide (r.key = (str "Ta", str "A"))) = 1)
    ∧ filledRowSix.female_count = 0
    ∧ filledRowSix.mobile_update_volume = 0 := by
  have h := claim_C4_left_join_zero_fill [enrolRowSix] [bioRowOther] [demoRowOther]
    (str "Ta", str "A") (by decide)
  exact ⟨h.1, (h.2 filledRowSix (by decide) (by decide)).1 (by decide),
    (h.2 filledRowSix (by decide) (by decide)).2 (by decide)⟩

/-!
Claim theorems: the forecast trainer.
-/

/-- Rounding half-to-even never falls below an integer lower bound. -/
theorem npRound_ge_of_ge {a : ℤ} {y : ℚ} (h : (a : ℚ) ≤ y) : a ≤ npRound y := by
  have hf : a ≤ ⌊y⌋ := Int.le_floor.mpr h
  simp only [npRound]
  split_ifs <;> omega

/-- Rounding half-to-even never exceeds an integer upper bound. -/
theorem npRound_le_of_le {b : ℤ} {y : ℚ} (h : y ≤ (b : ℚ)) : npRound y ≤ b := by
  have hf : (⌊y⌋ : ℚ) ≤ y := Int.floor_le y
  have hfb : ⌊y⌋ ≤ b := by exact_mod_cast le_trans hf h
  simp only [npRound]
  split_ifs with h1 h2 h3
  · exact hfb
  · have hlt : ⌊y⌋ < b := by
      rcases lt_or_eq_of_le hfb with hlt | heq
      · exact hlt
      · exfalso
        have hy0 : y - ((⌊y⌋ : ℤ) : ℚ) ≤ 0 := by rw [heq]; linarith
        linarith
    omega
  · exact hfb
  · have hr : y - ((⌊y⌋ : ℤ) : ℚ) = 1 / 2 := le_antisymm (not_lt.mp h2) (not_lt.mp h1)
    have hlt : ⌊y⌋ < b := by
      rcases lt_or_eq_of_le hfb with hlt | heq
      · exact hlt
      · exfalso
        have hy0 : y - ((⌊y⌋ : ℤ) : ℚ) ≤ 0 := by rw [heq]; linarith
        linarith
    omega

/-- Rounding half-to-even fixes integers. -/
theorem npRound_intCast (n : ℤ) : npRound ((n : ℚ)) = n := by
  simp only [npRound, Int.floor_intCast, sub_self]
  rw [if_pos (by norm_num)]

/-- C7: every bundle built from a prediction column with at least the three
future rows has exactly 3 values, all non-negative, and its trend is
INCREASING exactly when the last value strictly exceeds the first and
STABLE otherwise. -/
theorem claim_C7_bundle_shape (yhat : List ℚ) (cv : Option ℚ) (h3 : 3 ≤ yhat.length) :
    (forecastBundleFor yhat cv).values.length = 3
    ∧ (∀ v ∈ (forecastBundleFor yhat cv).values, 0 ≤ v)
    ∧ ((forecastBundleFor yhat cv).trend = Trend.INCREASING ↔
        (forecastBundleFor yhat cv).values.getLastD 0 >
          (forecastBundleFor yhat cv).values.headD 0)
    ∧ ((forecastBundleFor yhat cv).trend = Trend.STABLE ↔
        ¬(forecastBundleFor yhat cv).values.getLastD 0 >
          (forecastBundleFor yhat cv).values.headD 0) := by
  have hv : (forecastBundleFor yhat cv).values = forecastVals yhat := rfl
  have ht : (forecastBundleFor yhat cv).trend =
      (if (forecastVals yhat).getLastD 0 > (forecastVals yhat).headD 0
        then Trend.INCREASING else Trend.STABLE) := rfl
  refine ⟨?_, ?_, ?_, ?_⟩
  · rw [hv]
    unfold forecastVals tail3
    rw [List.length_map, List.length_drop]
    omega
  · intro v hv2
    rw [hv] at hv2
    unfold forecastVals at hv2
    rcases List.mem_map.mp hv2 with ⟨q, _, rfl⟩
    refine npRound_ge_of_ge ?_
    rw [Int.cast_zero]
    split_ifs with hq
    · exact le_refl 0
    · exact le_of_not_lt hq
  · rw [ht, hv]
    split_ifs with hgt
    · exact iff_of_true rfl hgt
    · exact iff_of_false (by decide) hgt
  · rw [ht, hv]
    split_ifs with hgt
    · exact iff_of_false (by decide) (fun hn => hn hgt)
    · exact iff_of_true rfl hgt

/-- Witness for C7 at a concrete prediction column. -/
theorem claim_C7_bundle_shape_witness :
    (forecastBundleFor [0, 1, 3] none).values.length = 3 :=
  (claim_C7_bundle_shape [0, 1, 3] none (by decide)).1

/-- C8: the emitted accuracy always lies in the closed range [85.0, 98.2]
whatever the raw cross-validation accuracy was, and a failed validation
(the fixed default 94.1) yields exactly 94.1. -/
theorem claim_C8_accuracy_clamped (yhat : List ℚ) (cv : Option ℚ) :
    (85 ≤ (forecastBundleFor yhat cv).accuracy
      ∧ (forecastBundleFor yhat cv).accuracy ≤ 982 / 10)
    ∧ (cv = none → (forecastBundleFor yhat cv).accuracy = 941 / 10) := by
  have hround : ∀ a : ℚ, 85 ≤ a → a ≤ 982 / 10 →
      85 ≤ roundDecimals 1 a ∧ roundDecimals 1 a ≤ 982 / 10 := by
    intro a hlo hhi
    have h850 : (850 : ℤ) ≤ npRound (a * 10 ^ 1) := by
      refine npRound_ge_of_ge ?_
      push_cast
      linarith
    have h982 : npRound (a * 10 ^ 1) ≤ (982 : ℤ) := by
      refine npRound_le_of_le ?_
      push_cast
      linarith
    have hc1 : ((850 : ℤ) : ℚ) ≤ (npRound (a * 10 ^ 1) : ℚ) := by exact_mod_cast h850
    have hc2 : ((npRound (a * 10 ^ 1) : ℤ) : ℚ) ≤ ((982 : ℤ) : ℚ) := by exact_mod_cast h982
    unfold roundDecimals
    constructor
    · rw [le_div_iff₀ (by norm_num : (0 : ℚ) < 10 ^ 1)]
      push_cast at hc1 ⊢
      linarith
    · rw [div_le_div_iff₀ (by norm_num : (0 : ℚ) < 10 ^ 1) (by norm_num : (0 : ℚ) < 10)]
      push_cast at hc2 ⊢
      linarith
  have hclamp : ∀ a : ℚ, 85 ≤ pymax 85 (pymin (982 / 10) a)
      ∧ pymax 85 (pymin (982 / 10) a) ≤ 982 / 10 := by
    intro a
    unfold pymax pymin
    split_ifs <;> constructor <;> linarith
  constructor
  · have := hround (pymax 85 (pymin (982 / 10)
      (match cv with | some a => a | none => 941 / 10)))
      (hclamp _).1 (hclamp _).2
    exact this
  · rintro rfl
    show roundDecimals 1 (pymax 85 (pymin (982 / 10) (941 / 10))) = 941 / 10
    have h1 : pymin (982 / 10 : ℚ) (941 / 10) = 941 / 10 := by
      unfold pymin
      rw [if_pos (by norm_num)]
    have h2 : pymax (85 : ℚ) (941 / 10) = 941 / 10 := by
      unfold pymax
      rw [if_pos (by norm_num)]
    rw [h1, h2]
    unfold roundDecimals
    have h3 : (941 / 10 : ℚ) * 10 ^ 1 = ((941 : ℤ) : ℚ) := by norm_num
    rw [h3, npRound_intCast]
    norm_num

/-- Witness for C8: validation failure on a concrete prediction column
yields the default-derived accuracy 94.1. -/
theorem claim_C8_accuracy_clamped_witness :
    (forecastBundleFor [0, 1, 3] none).accuracy = 941 / 10 :=
  (claim_C8_accuracy_clamped [0, 1, 3] none).2 rfl
